import Mathlib

/-!
Verification of `generate_license_statistics.py` (Debian license statistics).

The script's heuristic core is embedded shallowly:

* `simplify_license_name` — the license-name normalizer with its table
  `known_licenses`;
* `guess_licenses` — the pattern guesser over the ordered rule list
  `guessers` (a raised `PackageNotFound` is modelled as `none`);
* `extract_licenses` — the structured extractor; the external
  `debian.copyright` parser is modelled by a `ParseOutcome` parameter
  describing how the parse of the document text ended;
* the URL/path construction of `detect_licenses` / `fetch_copyright`;
* `fetch_last_package_list` — sorting of the package universe;
* the deterministic sampling performed in `main`.

The rule patterns are handed to Python's `re.search`.  All patterns in the
table are literal strings except for three metacharacter uses: the `.` in
`Apache-2.0` (any character except a newline) and the negated classes
`[^3]` / `[^-]`.  The mini pattern language `PatElem` captures exactly
these, and `patSearch` is `re.search`'s "match at some position" semantics.
-/

/-- One regex atom as used by the rule table: a literal character, the `.`
metacharacter (any character except newline), or a negated one-character
class `[^c]`. -/
inductive PatElem where
  | lit (c : Char)
  | dot
  | notChar (c : Char)
deriving DecidableEq

/-- Does one pattern atom match one character? -/
def patElemMatches : PatElem → Char → Bool
  | .lit c, d => c = d
  | .dot, d => d ≠ '\n'
  | .notChar c, d => c ≠ d

/-- Does the pattern match a prefix of the character list? -/
def patMatchesAt : List PatElem → List Char → Bool
  | [], _ => true
  | _ :: _, [] => false
  | p :: ps, c :: cs => patElemMatches p c && patMatchesAt ps cs

/-- Semantics of `re.search`: does the pattern match at some position of the text? -/
def patSearch (p : List PatElem) : List Char → Bool
  | [] => patMatchesAt p []
  | c :: cs => patMatchesAt p (c :: cs) || patSearch p cs

/-- Compile a literal string to a pattern. -/
def litPat (s : String) : List PatElem :=
  s.data.map PatElem.lit

/-- Boolean test that one character list starts with another
(`str.startswith` of Python). -/
def listStartsWith : List Char → List Char → Bool
  | [], _ => true
  | _ :: _, [] => false
  | p :: ps, c :: cs => p = c && listStartsWith ps cs

/-- The ordered rule table `guessers` of the script: `(regex, license)`
pairs.  The `Apache-2.0` pattern contains a regex `.`; the `GPL-[^3]`,
`GPL[^-]`, `LGPL-[^3]`, `LGPL[^-]` patterns contain negated classes; every
other pattern is a literal. -/
def guessers : List (List PatElem × String) := [
  (litPat "Creative Commons Attribution-ShareAlike", "CC"),
  (litPat "/usr/share/common-licenses/BSD", "BSD"),
  (litPat "LaTeX Project Public License", "LPPL"),
  (litPat "Permission is hereby granted, free of charge, to any person obtaining a copy", "MIT"),
  (litPat "under the \"Artistic\" license", "Artistic"),
  (litPat "/usr/share/common-licenses/Apache-2" ++ [PatElem.dot] ++ litPat "0", "Apache-2.0"),
  (litPat "/usr/share/common-licenses/BSD", "BSD"),
  (litPat "GNU General Public License as published by\nthe Free Software Foundation; either version 2", "GPL-2"),
  (litPat "may be used to endorse or promote products", "BSD"),
  (litPat "/usr/share/common-licenses/GPL-3", "GPL-3"),
  (litPat "/usr/share/common-licenses/GPL-" ++ [PatElem.notChar '3'], "GPL-2"),
  (litPat "/usr/share/common-licenses/GPL" ++ [PatElem.notChar '-'], "GPL-2"),
  (litPat "/usr/share/common-licenses/LGPL-3", "LGPL-3"),
  (litPat "/usr/share/common-licenses/LGPL-" ++ [PatElem.notChar '3'], "LGPL-2"),
  (litPat "/usr/share/common-licenses/LGPL" ++ [PatElem.notChar '-'], "LGPL-2"),
  (litPat "/usr/share/common-licenses/Artistic", "Artistic"),
  (litPat "from the Public Domain or from", "Artistic"),
  (litPat "modifications in the Public Domain or otherwise", "Artistic"),
  (litPat "GNU Free Documentation License", "GFDL"),
  (litPat "under the terms of the GPL", "GPL-2"),
  (litPat "9menu is free software", "other"),
  (litPat "Allegro is gift-ware", "other"),
  (litPat "Ruby\x27s License", "other"),
  (litPat "QoSient Public License", "other")]

/-- The normalization table `known_licenses` of the script, as the ordered
association list of its dict literal. -/
def known_licenses : List (String × String) := [
  ("Allegro-gift-ware", "Allegro"),
  ("Apache-2.0", "Apache-2.0"),
  ("Artistic or GPL-1", "Artistic"),
  ("Artistic-2.0", "Artistic-2"),
  ("BSD", "BSD"),
  ("BSD-3-clause", "BSD"),
  ("BSD-like", "BSD"),
  ("CC-BY-SA-3.0", "CC-BY-SA-3"),
  ("CeCILL-C", "CeCILL-C"),
  ("EPL", "EPL"),
  ("Expat", "Expat"),
  ("GNU Lesser GPL v3", "LGPL-3"),
  ("GPL-2", "GPL-2"),
  ("GPL-2 and LGPL-2.1", "LGPL-2"),
  ("GPL-2 and Other", "GPL-2"),
  ("GPL-2.0", "GPL-2"),
  ("GPL-2+ with OpenSSL exemption", "GPL-2"),
  ("GPL-2+ with Autoconf exception", "GPL-2"),
  ("GPL-3", "GPL-3"),
  ("GPL-3.0", "GPL-3"),
  ("GPL2", "GPL-2"),
  ("GPL3", "GPL-3"),
  ("ISC", "ISC"),
  ("LGPL", "LGPL"),
  ("LGPL-2", "LGPL-2"),
  ("LGPL-2.1", "LGPL-2"),
  ("LGPLv2.1", "LGPL-2"),
  ("LGPL-3", "LGPL-3"),
  ("MIT", "MIT"),
  ("MPL-1.1", "MPL-1.1"),
  ("PD", "PD"),
  ("Public_Domain_1", "PD"),
  ("Zlib", "Zlib"),
  ("other-BSD", "BSD"),
  ("public-domain", "PD")]

/-- Python's `license.rstrip('+')`: remove every trailing `+`. -/
def rstripPlus (s : String) : String :=
  String.mk ((s.data.reverse.dropWhile (fun c => c = '+')).reverse)

/-- The function `simplify_license_name`: strip trailing `+`, then look the string up in
`known_licenses`, falling back to the stripped string itself. -/
def simplify_license_name (license : String) : String :=
  let license := rstripPlus license
  (known_licenses.lookup license).getD license

/-- The HTML marker whose presence at the start of a document makes
`guess_licenses` raise `PackageNotFound`. -/
def notFoundMarker : String :=
  "<!DOCTYPE HTML PUBLIC \"-//IETF//DTD HTML 2.0//EN\">"

/-- The set of distinct license tokens whose rule pattern matches the text
(the set comprehension `guessed` inside `guess_licenses`). -/
def guessedSet (text : String) : Finset String :=
  ((guessers.filter (fun g => patSearch g.1 text.data)).map Prod.snd).toFinset

/-- The function `guess_licenses`.  A raised `PackageNotFound` is `none`.  The result
value (Python returns either a `set` or a list) is a `Finset String`.  The
`for line in lines: if line.startswith('License: ')` scan of the source only
binds a local variable that is read in `if False:` debugging branches, so it
has no observable effect and is not modelled. -/
def guess_licenses (text : String) : Option (Finset String) :=
  if listStartsWith notFoundMarker.data text.data then none
  else
    let guessed := guessedSet text
    if 1 < guessed.card then
      if guessed.sort (fun a b => a ≤ b) = ["Artistic", "GPL-2"] then some {"Perl"}
      else some guessed
    else if guessed.Nonempty then some guessed
    else some {"unknown"}

/-- One file paragraph of a successfully parsed machine-readable copyright
document, as `extract_licenses` consumes it: `selector` is `fp.files[0]`
(the paragraph's first file glob) and `license` is `fp.license.synopsis`
when the paragraph declares a license (`if fp.license`). -/
structure FilesParagraph where
  selector : String
  license : Option String
deriving DecidableEq

/-- How the external `debian.copyright.Copyright(text)` parse of the
document ended.  The parser is a third-party library, so its outcome is a
parameter of the embedding: a successful parse carries the file paragraphs,
`notMachineReadableError` is the schema failure the library documents, and
`otherError` is any other exception the parser raised. -/
inductive ParseOutcome where
  | ok (paragraphs : List FilesParagraph)
  | notMachineReadableError
  | otherError
deriving DecidableEq

/-- Python-dict insertion: replace the value in place when the key exists,
append otherwise. -/
def assocUpdate (l : List (String × String)) (k v : String) : List (String × String) :=
  match l with
  | [] => [(k, v)]
  | (k₁, v₁) :: t => if k₁ = k then (k, v) :: t else (k₁, v₁) :: assocUpdate t k v

/-- The dict comprehension of `extract_licenses`:
`{fp.files[0]: fp.license.synopsis for fp in paragraphs if fp.license}`. -/
def files_selectors (ps : List FilesParagraph) : List (String × String) :=
  ps.foldl (fun acc fp =>
    match fp.license with
    | some syn => assocUpdate acc fp.selector syn
    | none => acc) []

/-- The call `files_selectors.pop(u'debian/*', None)`: drop the packaging-owned
selector entry if present. -/
def popDebian (l : List (String × String)) : List (String × String) :=
  l.filter (fun kv => kv.1 != "debian/*")

/-- The function `extract_licenses`, with the external parser's outcome made explicit.
On a successful parse it follows the success path of the source; on either
failure it returns `('guessed', guess_licenses(text))` (the source logs the
unexpected exception but behaves identically in both `except` arms).  A
`PackageNotFound` escaping `guess_licenses` propagates, hence the `Option`
result. -/
def extract_licenses (parse : ParseOutcome) (text : String) :
    Option (String × Finset String) :=
  match parse with
  | ParseOutcome.ok ps =>
      let fs := popDebian (files_selectors ps)
      if fs = [] then some ("parsed", {"missing"})
      else some ("parsed", (fs.map (fun kv => simplify_license_name kv.2)).toFinset)
  | ParseOutcome.notMachineReadableError =>
      (guess_licenses text).map (fun g => ("guessed", g))
  | ParseOutcome.otherError =>
      (guess_licenses text).map (fun g => ("guessed", g))

/-- Bucket `name[0]` of a package name: its first letter (as a string). -/
def bucketOf (name : String) : String :=
  String.mk (name.data.take 1)

/-- The path built by `detect_licenses`:
`"%s/%s/%s_copyright" % (name[0], name, archive)`. -/
def detect_path (archive name : String) : String :=
  bucketOf name ++ "/" ++ name ++ "/" ++ archive ++ "_copyright"

/-- The service-relative path `fetch_copyright` requests for a given
`path` argument (the source prepends the host
`http://metadata.ftp-master.debian.org/` to it). -/
def copyright_request_path (path : String) : String :=
  "changelogs/main/" ++ path

/-- The full metadata-service path requested by
`detect_licenses(archive, name)`. -/
def detect_request_path (archive name : String) : String :=
  copyright_request_path (detect_path archive name)

/-- The path as the spec's external-interface section words it:
`changelogs/main/{bucket}/{package}/{package}_{channel}_copyright`.
Stated from the spec's words only, for comparison with
`detect_request_path`. -/
def spec_copyright_path (bucket pkg channel : String) : String :=
  "changelogs/main/" ++ bucket ++ "/" ++ pkg ++ "/" ++ pkg ++ "_" ++ channel ++ "_copyright"

/-- The function `fetch_last_package_list`, applied to the `package` fields of the
response's `result` records: `sorted(p['package'] for p in r['result'])`.
Python's `sorted` is a stable ascending sort; on strings (a linear order)
any correct sort produces the same list, embedded with `List.mergeSort`. -/
def fetch_last_package_list (result : List String) : List String :=
  result.mergeSort (fun a b => a ≤ b)

/-- Modelled from the spec: Python's `random` module is external to this
repository; after `random.seed(s)` its draws are determined solely by the
seed.  The seeded generator is modelled as a pure function giving the
`step`-th draw below `bound` (a fixed linear-congruential stand-in; the
claims depend only on its determinism). -/
def randBelow (seed step bound : Nat) : Nat :=
  if bound = 0 then 0
  else ((seed + 1) * 6364136223846793005 + (step + 1) * 1442695040888963407) % bound

/-- The Fisher-Yates loop of Python's `random.shuffle`: for `i` from
`n - 1` down to `1`, swap position `i` with a drawn `j < i + 1`. -/
def shuffleSteps {α : Type} (seed : Nat) : Array α → Nat → Array α
  | a, 0 => a
  | a, i + 1 => shuffleSteps seed (a.swap! (i + 1) (randBelow seed (i + 1) (i + 2))) i

/-- Modelled from the spec: `random.shuffle` after `random.seed(seed)` as a
pure function of the seed and the list. -/
def pyShuffle {α : Type} (seed : Nat) (l : List α) : List α :=
  (shuffleSteps seed l.toArray (l.length - 1)).toList

/-- The sampling done in `main`: `random.seed(12345)`,
`random.shuffle(package_names)`, `package_names[:max_packages]`. -/
def sample_packages (maxPackages : Nat) (packageNames : List String) : List String :=
  (pyShuffle 12345 packageNames).take maxPackages

/-- The list `archive_names` of `main`: the three release channels surveyed. -/
def archive_names : List String :=
  ["oldstable", "stable", "unstable"]

/-- The package list each release channel iterates over in `main`'s nested
loop: the sample is computed once, before the loop over channels, and the
inner loop walks the same list for every channel. -/
def channel_package_traversals (maxPackages : Nat) (packageNames : List String) :
    List (String × List String) :=
  let package_names := sample_packages maxPackages packageNames
  archive_names.map (fun a => (a, package_names))

/-- The spec's structured-extractor example: two file groups, upstream
`*` under MIT and packaging `debian/*` under GPL-3. -/
def exampleParagraphs : List FilesParagraph :=
  [⟨"*", some "MIT"⟩, ⟨"debian/*", some "GPL-3"⟩]

/-! ### Normalizer lemmas and claims -/

lemma dropWhile_dropWhile_self {α : Type} (p : α → Bool) (l : List α) :
    (l.dropWhile p).dropWhile p = l.dropWhile p := by
  induction l with
  | nil => rfl
  | cons a t ih =>
      by_cases h : p a
      · simp [List.dropWhile_cons, h, ih]
      · simp [List.dropWhile_cons, h]

lemma rstripPlus_rstripPlus (s : String) :
    rstripPlus (rstripPlus s) = rstripPlus s := by
  unfold rstripPlus
  simp [dropWhile_dropWhile_self]

lemma rstripPlus_append_plus (s : String) :
    rstripPlus (s ++ "+") = rstripPlus s := by
  unfold rstripPlus
  apply congrArg String.mk
  apply congrArg List.reverse
  simp [String.data_append]

lemma lookup_mem_values :
    ∀ (l : List (String × String)) {k v : String},
      l.lookup k = some v → v ∈ l.map Prod.snd := by
  intro l
  induction l with
  | nil => intro k v h; simp [List.lookup] at h
  | cons p t ih =>
      intro k v h
      obtain ⟨k₁, v₁⟩ := p
      rw [List.lookup_cons] at h
      cases hk : (k == k₁) with
      | true =>
          rw [hk] at h
          simp at h
          simp [h]
      | false =>
          rw [hk] at h
          simp only [List.map_cons, List.mem_cons]
          exact Or.inr (ih h)

lemma known_licenses_values_fixed :
    ∀ c ∈ known_licenses.map Prod.snd, simplify_license_name c = c := by
  decide

/-- C4: the normalizer strips trailing `+` characters, looks the trimmed
string up in `known_licenses` and returns the entry when present, the
trimmed string itself otherwise; `simplify_license_name (raw ++ "+")`
equals `simplify_license_name raw` for every string, and every table pair
normalizes to its canonical entry. -/
theorem simplify_license_name_spec (raw c : String) :
    (simplify_license_name (raw ++ "+") = simplify_license_name raw) ∧
    (∀ p ∈ known_licenses, simplify_license_name p.1 = p.2) ∧
    (known_licenses.lookup (rstripPlus raw) = some c → simplify_license_name raw = c) ∧
    (known_licenses.lookup (rstripPlus raw) = none → simplify_license_name raw = rstripPlus raw) := by
  refine ⟨?_, by decide, ?_, ?_⟩
  · unfold simplify_license_name
    rw [rstripPlus_append_plus]
  · intro h
    show (known_licenses.lookup (rstripPlus raw)).getD (rstripPlus raw) = c
    rw [h]
    rfl
  · intro h
    show (known_licenses.lookup (rstripPlus raw)).getD (rstripPlus raw) = rstripPlus raw
    rw [h]
    rfl

theorem simplify_license_name_spec_witness :
    (simplify_license_name ("GPL-2" ++ "+") = simplify_license_name "GPL-2") ∧
    (simplify_license_name "BSD-3-clause" = "BSD") ∧
    (known_licenses.lookup (rstripPlus "Foo-1.0") = none ∧
      simplify_license_name "Foo-1.0" = rstripPlus "Foo-1.0") :=
  ⟨(simplify_license_name_spec "GPL-2" "BSD").1,
   (simplify_license_name_spec "BSD-3-clause" "BSD").2.1 ("BSD-3-clause", "BSD") (by decide),
   by decide,
   (simplify_license_name_spec "Foo-1.0" "BSD").2.2.2 (by decide)⟩

/-- C10: the normalizer is idempotent; in particular every value of the
normalization table is a fixed point of `simplify_license_name`. -/
theorem simplify_license_name_idem (s : String) :
    simplify_license_name (simplify_license_name s) = simplify_license_name s := by
  cases h : known_licenses.lookup (rstripPlus s) with
  | none =>
      have e : simplify_license_name s = rstripPlus s := by
        show (known_licenses.lookup (rstripPlus s)).getD (rstripPlus s) = rstripPlus s
        rw [h]
        rfl
      rw [e]
      show (known_licenses.lookup (rstripPlus (rstripPlus s))).getD (rstripPlus (rstripPlus s)) =
        rstripPlus s
      rw [rstripPlus_rstripPlus, h]
      rfl
  | some c =>
      have e : simplify_license_name s = c := by
        show (known_licenses.lookup (rstripPlus s)).getD (rstripPlus s) = c
        rw [h]
        rfl
      rw [e]
      exact known_licenses_values_fixed c (lookup_mem_values known_licenses h)

/-! ### Guesser lemmas and claims -/

lemma artistic_le_gpl2 : ("Artistic" : String) ≤ "GPL-2" := by
  rw [String.le_iff_toList_le]
  decide

lemma sort_eq_artistic_gpl2_iff (s : Finset String) :
    s.sort (fun a b => a ≤ b) = ["Artistic", "GPL-2"] ↔
      s = ({"Artistic", "GPL-2"} : Finset String) := by
  constructor
  · intro h
    ext a
    rw [← Finset.mem_sort (fun a b => a ≤ b), h]
    simp
  · intro h
    subst h
    rw [Finset.sort_insert]
    · rw [Finset.sort_singleton]
    · intro b hb
      rw [Finset.mem_singleton] at hb
      subst hb
      exact artistic_le_gpl2
    · decide

/-- C3: a document starting with the HTML-404 marker makes the guesser
raise `PackageNotFound` (modelled as `none`): no license token is returned,
and in particular the case is not folded into an `unknown` result. -/
theorem guess_licenses_not_found (text : String)
    (h : listStartsWith notFoundMarker.data text.data = true) :
    guess_licenses text = none := by
  simp [guess_licenses, h]

theorem guess_licenses_not_found_witness :
    listStartsWith notFoundMarker.data notFoundMarker.data = true ∧
    guess_licenses notFoundMarker = none :=
  ⟨by decide, guess_licenses_not_found notFoundMarker (by decide)⟩

/-- C1: away from the HTML-404 marker, the guesser's result is a function
of the set of distinct matched rule tokens: the empty match set gives the
single token `unknown`, a singleton match set gives exactly that token, a
match set of two or more tokens other than `{Artistic, GPL-2}` is returned
whole, and equal match sets give equal results. -/
theorem guess_licenses_resolution (text : String)
    (hm : listStartsWith notFoundMarker.data text.data = false) :
    (guessedSet text = ∅ → guess_licenses text = some {"unknown"}) ∧
    (∀ l, guessedSet text = {l} → guess_licenses text = some {l}) ∧
    (2 ≤ (guessedSet text).card → guessedSet text ≠ ({"Artistic", "GPL-2"} : Finset String) →
      guess_licenses text = some (guessedSet text)) ∧
    (∀ t₂, listStartsWith notFoundMarker.data t₂.data = false → guessedSet text = guessedSet t₂ →
      guess_licenses text = guess_licenses t₂) := by
  refine ⟨?_, ?_, ?_, ?_⟩
  · intro h0
    simp [guess_licenses, hm, h0]
  · intro l hl
    simp [guess_licenses, hm, hl]
  · intro hcard hne
    have h1 : 1 < (guessedSet text).card := hcard
    simp only [guess_licenses, hm, Bool.false_eq_true, if_false]
    rw [if_pos h1, if_neg]
    intro hsort
    exact hne ((sort_eq_artistic_gpl2_iff (guessedSet text)).mp hsort)
  · intro t₂ hm₂ hset
    simp only [guess_licenses, hm, hm₂, Bool.false_eq_true, if_false, hset]

theorem guess_licenses_resolution_witness :
    (listStartsWith notFoundMarker.data ("hello").data = false ∧
      guessedSet "hello" = ∅ ∧
      guess_licenses "hello" = some {"unknown"}) ∧
    (guessedSet "LaTeX Project Public License" = {"LPPL"} ∧
      guess_licenses "LaTeX Project Public License" = some {"LPPL"}) ∧
    (guessedSet "LaTeX Project Public License GNU Free Documentation License 9menu is free software" =
        ({"LPPL", "GFDL", "other"} : Finset String) ∧
      guess_licenses "LaTeX Project Public License GNU Free Documentation License 9menu is free software" =
        some ({"LPPL", "GFDL", "other"} : Finset String)) := by
  refine ⟨⟨by decide, by decide, ?_⟩, ⟨by decide, ?_⟩, ⟨by decide, ?_⟩⟩
  · exact (guess_licenses_resolution "hello" (by decide)).1 (by decide)
  · exact (guess_licenses_resolution _ (by decide)).2.1 "LPPL" (by decide)
  · have h := (guess_licenses_resolution
        "LaTeX Project Public License GNU Free Documentation License 9menu is free software"
        (by decide)).2.2.1 (by decide) (by decide)
    rw [h]
    congr 1

/-- C2: a document (not starting with the HTML-404 marker) whose set of
distinct matched rule tokens is exactly `{Artistic, GPL-2}` is classified
as the single token `Perl`, not as a two-element set. -/
theorem guess_licenses_perl (text : String)
    (hm : listStartsWith notFoundMarker.data text.data = false)
    (hg : guessedSet text = ({"Artistic", "GPL-2"} : Finset String)) :
    guess_licenses text = some {"Perl"} := by
  simp only [guess_licenses, hm, Bool.false_eq_true, if_false, hg]
  rw [if_pos, if_pos]
  · exact (sort_eq_artistic_gpl2_iff _).mpr rfl
  · decide

theorem guess_licenses_perl_witness :
    guessedSet "under the \"Artistic\" license and under the terms of the GPL" =
      ({"Artistic", "GPL-2"} : Finset String) ∧
    guess_licenses "under the \"Artistic\" license and under the terms of the GPL" =
      some {"Perl"} :=
  ⟨by decide, guess_licenses_perl _ (by decide) (by decide)⟩

/-! ### Structured-extractor claims -/

/-- C5: on a successful structured parse, the extractor builds the
selector-to-synopsis mapping, drops the packaging-owned `debian/*` entry
(no entry of the remaining mapping carries that selector), reports
`("parsed", {"missing"})` when the remaining mapping is empty, and
otherwise reports `"parsed"` with the set of distinct normalized synopses
of the remaining entries. -/
theorem extract_licenses_parsed (ps : List FilesParagraph) (text : String) :
    (∀ kv ∈ popDebian (files_selectors ps), kv.1 ≠ "debian/*") ∧
    (popDebian (files_selectors ps) = [] →
      extract_licenses (ParseOutcome.ok ps) text = some ("parsed", {"missing"})) ∧
    (popDebian (files_selectors ps) ≠ [] →
      extract_licenses (ParseOutcome.ok ps) text =
        some ("parsed",
          ((popDebian (files_selectors ps)).map (fun kv => simplify_license_name kv.2)).toFinset)) := by
  refine ⟨?_, ?_, ?_⟩
  · intro kv hkv
    have h := List.of_mem_filter hkv
    simpa using h
  · intro h
    simp [extract_licenses, h]
  · intro h
    simp [extract_licenses, h]

theorem extract_licenses_parsed_witness :
    popDebian (files_selectors exampleParagraphs) ≠ [] ∧
    extract_licenses (ParseOutcome.ok exampleParagraphs) "" =
      some ("parsed", ({"MIT"} : Finset String)) := by
  refine ⟨by decide, ?_⟩
  have h := (extract_licenses_parsed exampleParagraphs "").2.2 (by decide)
  rw [h]
  rfl

/-- C6: when the structured parse fails — with the documented
not-machine-readable error or with any other parser exception — the
extractor does not propagate the failure: it returns origin `guessed`
paired with exactly the pattern guesser's result on the same text. -/
theorem extract_licenses_fallback (parse : ParseOutcome) (text : String)
    (h : parse = ParseOutcome.notMachineReadableError ∨ parse = ParseOutcome.otherError) :
    extract_licenses parse text = (guess_licenses text).map (fun g => ("guessed", g)) := by
  rcases h with h | h <;> subst h <;> rfl

theorem extract_licenses_fallback_witness :
    (ParseOutcome.notMachineReadableError = ParseOutcome.notMachineReadableError ∨
      ParseOutcome.notMachineReadableError = ParseOutcome.otherError) ∧
    extract_licenses ParseOutcome.notMachineReadableError "hello" =
      some ("guessed", ({"unknown"} : Finset String)) := by
  refine ⟨Or.inl rfl, ?_⟩
  rw [extract_licenses_fallback ParseOutcome.notMachineReadableError "hello" (Or.inl rfl)]
  rw [(guess_licenses_resolution "hello" (by decide)).1 (by decide)]
  rfl

/-! ### Fetch-path and package-list claims -/

/-- C7 counterexample: for channel `stable` and package `bash` the script
requests `changelogs/main/b/bash/stable_copyright`, not the
`changelogs/main/b/bash/bash_stable_copyright` the spec's path template
(`{package}_{channel}_copyright`) prescribes. -/
theorem detect_request_path_counterexample :
    detect_request_path "stable" "bash" = "changelogs/main/b/bash/stable_copyright" ∧
    detect_request_path "stable" "bash" ≠ spec_copyright_path "b" "bash" "stable" := by
  constructor
  · rfl
  · decide

/-- C7 (amended): for every release channel and every nonempty package
name, the requested metadata-service path is
`changelogs/main/{bucket}/{package}/{channel}_copyright`, where `{bucket}`
is the first letter of the package name — the file-name component carries
no `{package}_` prefix. -/
theorem detect_request_path_amended (archive : String) (c : Char) (rest : List Char) :
    detect_request_path archive (String.mk (c :: rest)) =
      "changelogs/main/" ++ String.mk [c] ++ "/" ++ String.mk (c :: rest) ++ "/" ++
        archive ++ "_copyright" := by
  apply String.ext
  simp [detect_request_path, copyright_request_path, detect_path, bucketOf]

/-- C8 counterexample: a response whose `result` records repeat a package
name yields a universe with that name duplicated — `fetch_last_package_list`
sorts but does not de-duplicate. -/
theorem fetch_last_package_list_counterexample :
    fetch_last_package_list ["abc", "abc"] = ["abc", "abc"] ∧
    ¬ (fetch_last_package_list ["abc", "abc"]).Nodup := by
  have h : fetch_last_package_list ["abc", "abc"] = ["abc", "abc"] := by
    apply List.mergeSort_of_sorted
    simp
  refine ⟨h, ?_⟩
  rw [h]
  decide

/-- C8 (amended): the consumed universe of package names is the `package`
fields of the response's `result` records in sorted order, duplicates
preserved: the produced list is sorted and is a permutation of the input
fields. -/
theorem fetch_last_package_list_sorted (result : List String) :
    List.Sorted (fun a b : String => a ≤ b) (fetch_last_package_list result) ∧
    List.Perm (fetch_last_package_list result) result := by
  constructor
  · have htrans : ∀ a b c : String,
        (fun a b : String => decide (a ≤ b)) a b → (fun a b : String => decide (a ≤ b)) b c →
          (fun a b : String => decide (a ≤ b)) a c := by
      intro a b c hab hbc
      simp only [decide_eq_true_eq] at *
      exact le_trans hab hbc
    have htotal : ∀ a b : String,
        ((fun a b : String => decide (a ≤ b)) a b || (fun a b : String => decide (a ≤ b)) b a) := by
      intro a b
      simpa using le_total a b
    have h := List.sorted_mergeSort htrans htotal result
    exact h.imp (fun hab => of_decide_eq_true hab)
  · exact List.mergeSort_perm result _

/-! ### Sampling claims -/

lemma shuffleSteps_size {α : Type} (seed : Nat) (a : Array α) (n : Nat) :
    (shuffleSteps seed a n).size = a.size := by
  induction n generalizing a with
  | zero => rfl
  | succ i ih => simp [shuffleSteps, ih, Array.size_swap!]

lemma pyShuffle_length {α : Type} (seed : Nat) (l : List α) :
    (pyShuffle seed l).length = l.length := by
  simp [pyShuffle, shuffleSteps_size]

/-- C9: with the seed fixed by the source (`random.seed(12345)` precedes
the shuffle), the sample is a function of the full package list alone —
equal lists give the identical sample, the same names in the same order —
one traversal list is produced per release channel (three), each channel
traverses exactly that single sample, and the sample has the expected
length `min max_packages M`. -/
theorem sampling_deterministic (maxPackages : Nat) (l₁ l₂ : List String) (h : l₁ = l₂) :
    channel_package_traversals maxPackages l₁ = channel_package_traversals maxPackages l₂ ∧
    (∀ pr ∈ channel_package_traversals maxPackages l₁,
      pr.2 = sample_packages maxPackages l₁) ∧
    (channel_package_traversals maxPackages l₁).length = 3 ∧
    (sample_packages maxPackages l₁).length = min maxPackages l₁.length := by
  refine ⟨by rw [h], ?_, rfl, ?_⟩
  · intro pr hpr
    simp only [channel_package_traversals, archive_names, List.map_cons, List.map_nil,
      List.mem_cons, List.not_mem_nil, or_false] at hpr
    rcases hpr with h1 | h1 | h1 <;> rw [h1]
  · simp [sample_packages, pyShuffle_length, List.length_take]

theorem sampling_deterministic_witness :
    (["aa", "bb", "cc", "dd", "ee", "ff", "gg"] : List String) =
      ["aa", "bb", "cc", "dd", "ee", "ff", "gg"] ∧
    channel_package_traversals 5 ["aa", "bb", "cc", "dd", "ee", "ff", "gg"] =
      channel_package_traversals 5 ["aa", "bb", "cc", "dd", "ee", "ff", "gg"] ∧
    (sample_packages 5 ["aa", "bb", "cc", "dd", "ee", "ff", "gg"]).length = 5 := by
  refine ⟨rfl, (sampling_deterministic 5 _ _ rfl).1, ?_⟩
  have h := (sampling_deterministic 5 ["aa", "bb", "cc", "dd", "ee", "ff", "gg"]
    ["aa", "bb", "cc", "dd", "ee", "ff", "gg"] rfl).2.2.2
  simpa using h
